import Mathlib

/-!
Verification development for the recipe-recommendation backend
(`app.py`, `app_improved.py`, `models.py`, `services.py`, `config.py`).

The Python code is shallowly embedded: the five database tables become lists
inside an explicit `AppState`, each Flask handler becomes a pure function from
a request and a state to a response and a new state, and the two external
collaborators (the PyJWT library and the OpenAI completion API) are modelled
by executable Lean definitions that capture their documented contracts.

Python strings are sequences of code points, so string-manipulating helpers
(`.strip()`, `.lower()`, `.split(',')`, `', '.join(...)`, slicing) are
implemented structurally over `List Char` and wrapped back into `String`.
All definitions are computable, so every theorem can be exercised on concrete
inputs.
-/

namespace RecipeApp

/-! ## Python string primitives (code-point level) -/

/-- Python `s.strip()` on the character list: drop leading and trailing
whitespace. -/
def stripChars (cs : List Char) : List Char :=
  ((cs.dropWhile Char.isWhitespace).reverse.dropWhile Char.isWhitespace).reverse

/-- Python `s.strip()`. -/
def pyStrip (s : String) : String := ⟨stripChars s.data⟩

/-- Python `s.lower()` (ASCII case folding, which covers the app's inputs). -/
def pyLower (s : String) : String := ⟨s.data.map Char.toLower⟩

/-- Python `s.split(ch)` for a single-character separator: always returns at
least one (possibly empty) chunk, mirroring `''.split(',') == ['']`. -/
def splitChar (sep : Char) : List Char → List (List Char)
  | [] => [[]]
  | c :: rest =>
    match splitChar sep rest with
    | [] => [[]]
    | g :: gs => if c = sep then [] :: g :: gs else (c :: g) :: gs

/-- Python `s.split(',')` returning Lean strings. -/
def pySplitComma (s : String) : List String :=
  (splitChar ',' s.data).map (fun cs => ⟨cs⟩)

/-- Python `sep.join(xs)`. -/
def pyJoin (sep : String) : List String → String
  | [] => ""
  | [x] => x
  | x :: y :: xs => x ++ sep ++ pyJoin sep (y :: xs)

/-! ## PyJWT model

`jwt.encode(payload, key, algorithm)` / `jwt.decode(token, key, algorithms)`
are an external library.  They are modelled by an executable serialization
that captures the library contract the app relies on: the token is an opaque
string embedding the algorithm name, the integer payload fields `user_id` and
`exp` (in unary, to keep kernel evaluation and proofs straightforward), and a
signature that verifies exactly when the decoding key equals the encoding key
(HMAC with a shared secret).  `jwt.decode` rejects expired tokens
(`now ≥ exp`), wrong-key tokens and malformed tokens. -/

/-- Count the leading `'x'` characters (the unary payload digits) and return
the remainder. -/
def countLeadingX : List Char → Nat × List Char
  | [] => (0, [])
  | c :: rest =>
    if c = 'x' then
      match countLeadingX rest with
      | (n, r) => (n + 1, r)
    else (0, c :: rest)

/-- Model of `jwt.encode({'user_id': uid, 'exp': exp}, secret, algorithm=alg)`. -/
def jwtEncode (userId expTime : Nat) (secret alg : String) : String :=
  ⟨'j' :: 'w' :: 't' :: ':' ::
    (alg.data ++ (':' ::
      (List.replicate userId 'x' ++ (':' ::
        (List.replicate expTime 'x' ++ (':' :: secret.data))))))⟩

/-- Payload parsing after the `jwt:<alg>:` header: unary `user_id`, `:`,
unary `exp`, `:`, signature.  The signature must equal the verification
secret and the token must be unexpired. -/
def jwtParsePayload (cs secret : List Char) (now : Nat) : Option Nat :=
  match countLeadingX cs with
  | (uid, r1) =>
    match r1 with
    | ':' :: r2 =>
      match countLeadingX r2 with
      | (expTime, r3) =>
        match r3 with
        | ':' :: sig => if sig = secret ∧ now < expTime then some uid else none
        | _ => none
    | _ => none

/-- Try to decode assuming a particular allowed algorithm. -/
def jwtDecodeWith (cs secret : List Char) (alg : String) (now : Nat) : Option Nat :=
  let pre := 'j' :: 'w' :: 't' :: ':' :: (alg.data ++ [':'])
  if pre.isPrefixOf cs then jwtParsePayload (cs.drop pre.length) secret now else none

/-- Model of `jwt.decode(token, secret, algorithms=algs)['user_id']`:
`some uid` on success, `none` when the library would raise
(`InvalidTokenError` / `ExpiredSignatureError`). -/
def jwtDecode (token secret : String) (algs : List String) (now : Nat) : Option Nat :=
  algs.findSome? (fun alg => jwtDecodeWith token.data secret.data alg now)

/-! Basic facts about the JWT model. -/

theorem countLeadingX_replicate (n : Nat) (l : List Char) :
    countLeadingX (List.replicate n 'x' ++ (':' :: l)) = (n, ':' :: l) := by
  induction n with
  | zero => simp [countLeadingX]
  | succ k ih => simp [List.replicate_succ, countLeadingX, ih]

theorem isPrefixOf_append_self (l t : List Char) : l.isPrefixOf (l ++ t) = true := by
  induction l with
  | nil => simp [List.isPrefixOf]
  | cons c cs ih => simp [List.isPrefixOf, ih]

theorem jwtDecodeWith_encode (uid expTime : Nat) (secret alg : String) (now : Nat)
    (h : now < expTime) :
    jwtDecodeWith (jwtEncode uid expTime secret alg).data secret.data alg now
      = some uid := by
  have hsplit : (jwtEncode uid expTime secret alg).data
      = ('j' :: 'w' :: 't' :: ':' :: (alg.data ++ [':'])) ++
        (List.replicate uid 'x' ++ (':' ::
          (List.replicate expTime 'x' ++ (':' :: secret.data)))) := by
    simp [jwtEncode]
  simp only [jwtDecodeWith, hsplit]
  rw [isPrefixOf_append_self]
  simp only [if_true, List.drop_left]
  simp only [jwtParsePayload]
  rw [countLeadingX_replicate uid (List.replicate expTime 'x' ++ (':' :: secret.data))]
  simp only []
  rw [countLeadingX_replicate expTime secret.data]
  simp [h]

/-- Decoding a token with the key and algorithm it was encoded with recovers
the `user_id` payload, for any unexpired decode time. -/
theorem jwtDecode_jwtEncode (uid expTime : Nat) (secret : String) (now : Nat)
    (h : now < expTime) :
    jwtDecode (jwtEncode uid expTime secret "HS256") secret ["HS256"] now = some uid := by
  simp [jwtDecode, List.findSome?, jwtDecodeWith_encode uid expTime secret "HS256" now h]

/-! ## Email validation (`app.py` `register`)

`app.py` checks the email against the regular expression
`^[a-zA-Z0-9._%+-]+@[a-zA-Z0-9.-]+\.[a-zA-Z]\x7b2,\x7d$` with `re.match`.
The translation below is structural: neither character class contains `@`,
so a match needs exactly one `@`; after the `@`, the final `\.` of the
pattern can only be the last dot of the domain (the top-level-domain class
`[a-zA-Z]` excludes dots), so the domain matches exactly when the text after
its last dot is two or more ASCII letters and the nonempty text before that
dot consists of domain characters.  Python's `$` also matches just before a
single trailing newline, which `reMatchTarget` reproduces. -/

/-- Characters of the local-part class `[a-zA-Z0-9._%+-]`. -/
def isLocalChar (c : Char) : Bool :=
  c.isAlpha || c.isDigit || c = '.' || c = '_' || c = '%' || c = '+' || c = '-'

/-- Characters of the domain class `[a-zA-Z0-9.-]`. -/
def isDomainChar (c : Char) : Bool :=
  c.isAlpha || c.isDigit || c = '.' || c = '-'

/-- Python `sep.join` at the character-list level. -/
def joinWith (sep : Char) : List (List Char) → List Char
  | [] => []
  | [g] => g
  | g :: h :: gs => g ++ (sep :: joinWith sep (h :: gs))

/-- Python's `$` can match just before one trailing newline, so `re.match`
with an anchored pattern effectively targets the string with at most one
final newline removed. -/
def reMatchTarget (cs : List Char) : List Char :=
  if cs.getLast? = some '\n' then cs.dropLast else cs

/-- Match of `[a-zA-Z0-9.-]+\.[a-zA-Z]\x7b2,\x7d` against the whole domain. -/
def validDomain (d : List Char) : Bool :=
  match (splitChar '.' d).reverse with
  | [] => false
  | tld :: restRev =>
    match restRev with
    | [] => false
    | _ :: _ =>
      let before := joinWith '.' restRev.reverse
      decide (before ≠ []) && before.all isDomainChar &&
        decide (2 ≤ tld.length) && tld.all Char.isAlpha

/-- Match of the full email pattern used by `register`. -/
def validEmail (s : String) : Bool :=
  match splitChar '@' (reMatchTarget s.data) with
  | [localPart, domain] =>
    decide (localPart ≠ []) && localPart.all isLocalChar && validDomain domain
  | _ => false

/-! ## Data model

The five tables created by `init_database` in `app.py`.  `AUTO_INCREMENT`
primary keys are modelled by explicit next-id counters; `cursor.lastrowid`
is the id just assigned.  Row ids of `user_ingredients`, `user_favorites`
and `search_history` are never read back by the app, so those tables are
lists of their payload columns in insertion order. -/

structure UserRow where
  id : Nat
  name : String
  email : String
  password_hash : String
deriving DecidableEq, Repr

structure RecipeRow where
  id : Nat
  name : String
  description : String
  ingredients : String
  instructions : String
  cook_time : String
  difficulty : String
deriving DecidableEq, Repr

structure HistRow where
  user_id : Nat
  ingredients : String
  recipes_found : Nat
  search_time : Nat
deriving DecidableEq, Repr

structure AppState where
  users : List UserRow
  nextUserId : Nat
  userIngredients : List (Nat × String)
  recipes : List RecipeRow
  nextRecipeId : Nat
  favorites : List (Nat × Nat)
  history : List HistRow
deriving DecidableEq, Repr

/-- The empty database, as produced by `init_database`. -/
def AppState.empty : AppState := ⟨[], 1, [], [], 1, [], []⟩

/-! ## Password hashing (werkzeug)

`generate_password_hash` / `check_password_hash` are external library
functions; the contract the app relies on is that checking a password
against its own hash succeeds and the hash is not the plaintext.  The salt
is irrelevant to every claim, so the model is deterministic. -/

def generate_password_hash (password : String) : String := ⟨'#' :: password.data⟩

def check_password_hash (hash password : String) : Bool :=
  hash = generate_password_hash password

/-! ## Authentication (`app.py`) -/

/-- The Flask `SECRET_KEY` configured at the top of `app.py`. -/
def SECRET_KEY : String := "your-secret-key-change-this"

/-- Seven days in seconds: `timedelta(days=7)` added to `datetime.utcnow()`,
with time modelled in whole seconds. -/
def sevenDays : Nat := 7 * 86400

/-- A JSON body field that may be absent; Python's falsiness test
`not data.get(k)` is true for a missing key and for the empty string. -/
def fieldBlank : Option String → Bool
  | none => true
  | some s => s = ""

/-- Request body of `POST /api/register` (`None` body is ruled out upstream
by Flask returning 400 on unparseable JSON; field absence is `none`). -/
structure RegisterReq where
  name : Option String
  email : Option String
  password : Option String
deriving DecidableEq, Repr

structure RegisterOut where
  status : Nat
  token : Option String
  userId : Option Nat
  state : AppState
deriving DecidableEq, Repr

/-- The `register` handler of `app.py` (lines 142-204): presence check,
email-format check, password-length check, duplicate-email check, then
insert plus a fresh 7-day token. -/
def register (s : AppState) (data : Option RegisterReq) (now : Nat) : RegisterOut :=
  match data with
  | none => ⟨400, none, none, s⟩
  | some d =>
    if fieldBlank d.name || fieldBlank d.email || fieldBlank d.password then
      ⟨400, none, none, s⟩
    else
      let email := d.email.getD ""
      let password := d.password.getD ""
      if !validEmail email then ⟨400, none, none, s⟩
      else if password.length < 6 then ⟨400, none, none, s⟩
      else if (s.users.find? (fun u => u.email = email)).isSome then
        ⟨409, none, none, s⟩
      else
        let uid := s.nextUserId
        let row : UserRow := ⟨uid, d.name.getD "", email, generate_password_hash password⟩
        let token := jwtEncode uid (now + sevenDays) SECRET_KEY "HS256"
        ⟨201, some token, some uid,
          ⟨s.users ++ [row], uid + 1, s.userIngredients, s.recipes, s.nextRecipeId,
            s.favorites, s.history⟩⟩

structure LoginReq where
  email : Option String
  password : Option String
deriving DecidableEq, Repr

structure LoginOut where
  status : Nat
  token : Option String
  userId : Option Nat
deriving DecidableEq, Repr

/-- The `login` handler of `app.py` (lines 206-250): look up the user row by
email, verify the password hash, reissue a 7-day token. -/
def login (s : AppState) (data : Option LoginReq) (now : Nat) : LoginOut :=
  match data with
  | none => ⟨400, none, none⟩
  | some d =>
    if fieldBlank d.email || fieldBlank d.password then ⟨400, none, none⟩
    else
      match s.users.find? (fun u => u.email = d.email.getD "") with
      | none => ⟨401, none, none⟩
      | some u =>
        if !check_password_hash u.password_hash (d.password.getD "") then ⟨401, none, none⟩
        else ⟨200, some (jwtEncode u.id (now + sevenDays) SECRET_KEY "HS256"), some u.id⟩

/-- The prefix handling inside `token_required`: `token[7:]` when the header
value starts with `'Bearer '`, the raw value otherwise. -/
def stripBearer (token : String) : String :=
  if ("Bearer ".data).isPrefixOf token.data then ⟨token.data.drop 7⟩ else token

/-- The `token_required` decorator of `app.py` (lines 39-57): 401 when the
`Authorization` header is missing or the (optionally `Bearer `-prefixed)
token fails `jwt.decode` with the server secret; otherwise the wrapped view
is invoked with the decoded `user_id`. -/
def token_required (header : Option String) (now : Nat) : Except String Nat :=
  match header with
  | none => .error "Token is missing"
  | some token =>
    match jwtDecode (stripBearer token) SECRET_KEY ["HS256"] now with
    | some uid => .ok uid
    | none => .error "Token is invalid"

/-- Tokens produced by the JWT model never carry the `'Bearer '` prefix
(real compact JWTs cannot either: base64url has no space). -/
theorem stripBearer_jwtEncode (uid expTime : Nat) (secret alg : String) :
    stripBearer (jwtEncode uid expTime secret alg) = jwtEncode uid expTime secret alg := by
  unfold stripBearer jwtEncode
  simp [List.isPrefixOf]

theorem stripBearer_bearer_append (t : String) :
    stripBearer ("Bearer " ++ t) = t := by
  unfold stripBearer
  have hdata : ("Bearer " ++ t).data = "Bearer ".data ++ t.data := by
    cases t with
    | mk cs => rfl
  rw [hdata, isPrefixOf_append_self]
  have hlen : "Bearer ".data.length = 7 := by rfl
  simp only [if_true, ← hlen, List.drop_left]

theorem stripBearer_of_not_prefixed (t : String)
    (h : ("Bearer ".data).isPrefixOf t.data = false) : stripBearer t = t := by
  unfold stripBearer
  simp [h]

/-! ## Ingredient endpoints (`app.py` lines 362-434) -/

structure AddIngredientOut where
  status : Nat
  ingredient : Option String
  state : AppState
deriving DecidableEq, Repr

/-- The `add_ingredient` handler: the submitted name is normalised with
`.strip().lower()`, rejected when empty, rejected with 409 when the user
already has it, otherwise inserted. -/
def add_ingredient (s : AppState) (uid : Nat) (ingredientField : Option String) :
    AddIngredientOut :=
  let ingredient := pyLower (pyStrip (ingredientField.getD ""))
  if ingredient = "" then ⟨400, none, s⟩
  else if (uid, ingredient) ∈ s.userIngredients then ⟨409, none, s⟩
  else
    ⟨201, some ingredient,
      ⟨s.users, s.nextUserId, s.userIngredients ++ [(uid, ingredient)], s.recipes,
        s.nextRecipeId, s.favorites, s.history⟩⟩

structure RemoveIngredientOut where
  status : Nat
  state : AppState
deriving DecidableEq, Repr

/-- The `remove_ingredient` handler: `DELETE ... WHERE user_id = %s AND
ingredient = %s` with the lowercased path parameter; `rowcount == 0` yields
404, otherwise 200. -/
def remove_ingredient (s : AppState) (uid : Nat) (ingredient : String) :
    RemoveIngredientOut :=
  let target := pyLower ingredient
  let deleted := s.userIngredients.filter (fun r => r.1 = uid ∧ r.2 = target)
  if deleted.length = 0 then ⟨404, s⟩
  else
    ⟨200,
      ⟨s.users, s.nextUserId,
        s.userIngredients.filter (fun r => ¬(r.1 = uid ∧ r.2 = target)), s.recipes,
        s.nextRecipeId, s.favorites, s.history⟩⟩

/-- The ingredient names a user's pantry currently holds. -/
def pantry (s : AppState) (uid : Nat) : List String :=
  (s.userIngredients.filter (fun r => r.1 = uid)).map (fun r => r.2)

/-! ## Favorites (`app.py` lines 474-538)

`add_favorite` runs on one connection without autocommit and only commits on
the 201 path, so the recipe row inserted on the way to a 409 response is
rolled back when the connection closes: the 409 and error paths leave the
database unchanged. -/

/-- Request body field `recipe`: `none` models a missing or empty (falsy)
`recipe` object.  Optional fields mirror `recipe_data.get(...)` defaults;
`name` is accessed as `recipe_data['name']`, so its absence raises a
`KeyError` that no handler catches (Flask turns it into a 500). -/
structure RecipeReq where
  name : Option String
  description : Option String
  ingredients : Option (List String)
  instructions : Option (List String)
  cook_time : Option String
  difficulty : Option String
deriving DecidableEq, Repr

structure FavoriteOut where
  status : Nat
  state : AppState
deriving DecidableEq, Repr

/-- Insert a recipe row from the request fields, mirroring the `INSERT INTO
recipes ...` in `add_favorite` (`', '.join` / `'\n'.join` of the arrays). -/
def insertRecipeFromReq (s : AppState) (rd : RecipeReq) (n : String) : AppState :=
  ⟨s.users, s.nextUserId, s.userIngredients,
    s.recipes ++ [⟨s.nextRecipeId, n, rd.description.getD "",
      pyJoin ", " (rd.ingredients.getD []), pyJoin "\n" (rd.instructions.getD []),
      rd.cook_time.getD "", rd.difficulty.getD "Medium"⟩],
    s.nextRecipeId + 1, s.favorites, s.history⟩

/-- The `add_favorite` handler: resolve the recipe id by exact name
(`SELECT id FROM recipes WHERE name = %s`, first row in insertion order),
inserting the recipe when absent; 409 when `(user, recipe)` is already a
favorite (uncommitted work discarded), otherwise insert and commit. -/
def add_favorite (s : AppState) (uid : Nat) (req : Option RecipeReq) : FavoriteOut :=
  match req with
  | none => ⟨400, s⟩
  | some rd =>
    match rd.name with
    | none => ⟨500, s⟩
    | some n =>
      let found := s.recipes.find? (fun r => r.name = n)
      let rid := match found with
        | some r => r.id
        | none => s.nextRecipeId
      let s1 := match found with
        | some _ => s
        | none => insertRecipeFromReq s rd n
      if (uid, rid) ∈ s1.favorites then ⟨409, s⟩
      else
        ⟨201,
          ⟨s1.users, s1.nextUserId, s1.userIngredients, s1.recipes, s1.nextRecipeId,
            s1.favorites ++ [(uid, rid)], s1.history⟩⟩

/-- True when favoriting name `n` would hit the 409 duplicate check in state
`s`: the first recipe row of that name is already a favorite of `uid`. -/
def favoriteByName (s : AppState) (uid : Nat) (n : String) : Bool :=
  match s.recipes.find? (fun r => r.name = n) with
  | some r => (uid, r.id) ∈ s.favorites
  | none => false

/-- Well-formedness of the recipe/favorite tables, maintained by the
database's `AUTO_INCREMENT` and foreign keys: recipe ids are distinct and
below the next id, and favorites reference existing (hence allocated)
recipe ids. -/
def RecipesWF (s : AppState) : Prop :=
  (s.recipes.map (fun r => r.id)).Nodup ∧
    (∀ r ∈ s.recipes, r.id < s.nextRecipeId) ∧
    (∀ f ∈ s.favorites, f.2 < s.nextRecipeId)

/-! ## Search history (`models.py` `SearchHistory`, `app.py` lines 541-574) -/

/-- Ordering used by `ORDER BY search_time DESC`. -/
def moreRecent (a b : HistRow) : Prop := b.search_time ≤ a.search_time

instance : DecidableRel moreRecent := fun a b => Nat.decLe b.search_time a.search_time

instance : IsTotal HistRow moreRecent :=
  ⟨fun a b => Nat.le_total b.search_time a.search_time⟩

instance : IsTrans HistRow moreRecent :=
  ⟨fun _ _ _ hab hbc => Nat.le_trans hbc hab⟩

/-- `SearchHistory.get_user_history`: the user's rows ordered by
`search_time DESC` with `LIMIT limit`. -/
def get_user_history (s : AppState) (uid : Nat) (limit : Nat) : List HistRow :=
  (((s.history.filter (fun h => h.user_id = uid)).insertionSort moreRecent).take limit)

/-- The `GET /api/history` handler body (`LIMIT 20`). -/
def get_search_history (s : AppState) (uid : Nat) : List HistRow :=
  get_user_history s uid 20

/-! ## Recipe service (`services.py`) and search (`app_improved.py` lines 133-167)

`RecipeService.generate_recipes` calls the OpenAI completion API, strips
markdown code fences, parses the body with `json.loads` and validates the
result.  The network call, the fence stripping and the JSON parser are
external; their combined outcome is the `ApiOutcome` input below: an
exception from the API client, a `json.JSONDecodeError`, or a parsed JSON
value.  Parsed recipe objects are association lists (Python dicts) over a
value universe restricted to the shapes the service produces and consumes:
strings and arrays of strings. -/

inductive JVal where
  | jstr (s : String)
  | jarr (xs : List String)
deriving DecidableEq, Repr

/-- A parsed recipe object: a JSON dict. -/
def RecipeJson : Type := List (String × JVal)

instance : DecidableEq RecipeJson := fun a b => List.hasDecEq a b

instance : Repr RecipeJson := inferInstanceAs (Repr (List (String × JVal)))

/-- Result of the API call plus fence stripping plus `json.loads`. -/
inductive ApiOutcome where
  | apiError
  | parseError
  | parsedScalar
  | parsedList (rs : List RecipeJson)
deriving Repr

/-- The field-presence validation loop of `generate_recipes`:
`all(field in recipe for field in required_fields)`. -/
def hasRequiredFields (r : RecipeJson) : Bool :=
  ["name", "description", "ingredients", "instructions", "cook_time",
    "difficulty"].all (fun f => (r.lookup f).isSome)

/-- `RecipeService.get_fallback_recipes`: three templated recipes derived
from the comma-separated ingredient tokens. -/
def get_fallback_recipes (ingredients : String) : List RecipeJson :=
  let first := pyStrip ((pySplitComma ingredients).headD "")
  let ings (k : Nat) : List String := ((pySplitComma ingredients).take k).map pyStrip
  [ [("name", .jstr ("Simple " ++ first ++ " Dish")),
     ("description", .jstr "A quick and easy recipe using your available ingredients"),
     ("ingredients", .jarr (ings 5)),
     ("instructions", .jarr ["Prepare all ingredients", "Heat oil in a pan",
        "Cook main ingredients until done", "Season to taste", "Serve hot"]),
     ("cook_time", .jstr "20 min"),
     ("difficulty", .jstr "Easy")],
    [("name", .jstr ("Healthy " ++ first ++ " Bowl")),
     ("description", .jstr "A nutritious bowl combining fresh ingredients"),
     ("ingredients", .jarr (ings 4)),
     ("instructions", .jarr ["Prepare vegetables", "Cook protein if needed",
        "Arrange in a bowl", "Add dressing", "Enjoy fresh"]),
     ("cook_time", .jstr "15 min"),
     ("difficulty", .jstr "Easy")],
    [("name", .jstr ("Classic " ++ first ++ " Recipe")),
     ("description", .jstr "A traditional preparation method"),
     ("ingredients", .jarr (ings 6)),
     ("instructions", .jarr ["Preheat cooking surface", "Season ingredients",
        "Cook according to preference", "Let rest briefly", "Serve and enjoy"]),
     ("cook_time", .jstr "25 min"),
     ("difficulty", .jstr "Medium")] ]

/-- `RecipeService.generate_recipes`: API/parse failures and validation
failures (not a list, missing fields — the raised `ValueError` is caught by
the blanket `except`) all fall back; a validated list is returned as-is. -/
def generate_recipes (outcome : ApiOutcome) (ingredients : String) : List RecipeJson :=
  match outcome with
  | .apiError => get_fallback_recipes ingredients
  | .parseError => get_fallback_recipes ingredients
  | .parsedScalar => get_fallback_recipes ingredients
  | .parsedList rs =>
    if rs.all hasRequiredFields then rs else get_fallback_recipes ingredients

/-- Spec-side characterisation of "the external call fails or returns
unparseable/invalid output": exactly the outcomes that trigger the fallback. -/
def fallbackTriggered (outcome : ApiOutcome) : Bool :=
  match outcome with
  | .apiError => true
  | .parseError => true
  | .parsedScalar => true
  | .parsedList rs => !(rs.all hasRequiredFields)

/-- Extraction of the six columns `create_recipe` stores, from a recipe
dict: `recipe_data['name']` etc., with the two array fields joined.  `none`
models the exception Python would raise on a missing or non-joinable
field. -/
def recipeColumns (r : RecipeJson) : Option RecipeRow :=
  match r.lookup "name", r.lookup "description", r.lookup "ingredients",
      r.lookup "instructions", r.lookup "cook_time", r.lookup "difficulty" with
  | some (.jstr n), some (.jstr d), some (.jarr ing), some (.jarr ins),
      some (.jstr ct), some (.jstr df) =>
    some ⟨0, n, d, pyJoin ", " ing, pyJoin "\n" ins, ct, df⟩
  | _, _, _, _, _, _ => none

/-- Append one recipe row with a fresh id. -/
def insertRecipeRow (s : AppState) (row : RecipeRow) : AppState :=
  ⟨s.users, s.nextUserId, s.userIngredients,
    s.recipes ++ [⟨s.nextRecipeId, row.name, row.description, row.ingredients,
      row.instructions, row.cook_time, row.difficulty⟩],
    s.nextRecipeId + 1, s.favorites, s.history⟩

/-- The `for recipe_data in recipes: recipe_model.create_recipe(...)` loop.
`models.Database.execute_query` commits every insert on its own connection,
so rows stored before an exception persist; the `Bool` is false when the
loop raised. -/
def storeRecipes (s : AppState) : List RecipeJson → Bool × AppState
  | [] => (true, s)
  | r :: rs =>
    match recipeColumns r with
    | some row => storeRecipes (insertRecipeRow s row) rs
    | none => (false, s)

structure SearchOut where
  status : Nat
  recipes : List RecipeJson
  total : Nat
  state : AppState
deriving Repr

/-- Append a search-history row (`SearchHistory.add_search`). -/
def addSearchRow (s : AppState) (uid : Nat) (ingredients : String) (found : Nat)
    (now : Nat) : AppState :=
  ⟨s.users, s.nextUserId, s.userIngredients, s.recipes, s.nextRecipeId, s.favorites,
    s.history ++ [⟨uid, ingredients, found, now⟩]⟩

/-- The `search_recipes` handler of `app_improved.py`: strip the submitted
ingredient string, 400 when empty, generate recipes (with fallback), log the
search, store the generated recipes, and answer 200 with the recipes and
their count.  An exception while storing is caught by the blanket `except`
and answered with 500 (the already-committed history row persists). -/
def search_recipes (s : AppState) (uid : Nat) (ingredientsField : Option String)
    (outcome : ApiOutcome) (now : Nat) : SearchOut :=
  let ingredients := pyStrip (ingredientsField.getD "")
  if ingredients = "" then ⟨400, [], 0, s⟩
  else
    let recipes := generate_recipes outcome ingredients
    let s1 := addSearchRow s uid ingredients recipes.length now
    match storeRecipes s1 recipes with
    | (true, s2) => ⟨200, recipes, recipes.length, s2⟩
    | (false, s2) => ⟨500, [], 0, s2⟩

/-! ## Claim theorems -/

/-- C6: a registration request whose email fails the email-shape check, or
whose password is shorter than 6 characters, is answered with a 400
validation error, and no user row is created. -/
theorem register_validation_rejects (s : AppState) (d : RegisterReq) (now : Nat)
    (h : validEmail (d.email.getD "") = false ∨ (d.password.getD "").length < 6) :
    (register s (some d) now).status = 400 ∧ (register s (some d) now).state = s := by
  unfold register
  by_cases hb : (fieldBlank d.name || fieldBlank d.email || fieldBlank d.password) = true
  · simp [hb]
  · replace hb : (fieldBlank d.name || fieldBlank d.email || fieldBlank d.password) = false := by
      revert hb
      cases fieldBlank d.name || fieldBlank d.email || fieldBlank d.password <;> simp
    rcases h with h | h
    · simp [hb, h]
    · by_cases hv : validEmail (d.email.getD "") = true
      · simp [hb, hv, h]
      · replace hv : validEmail (d.email.getD "") = false := by
          revert hv
          cases validEmail (d.email.getD "") <;> simp
        simp [hb, hv]

theorem register_validation_rejects_witness :
    (validEmail "not-an-email" = false ∨ ("secret1" : String).length < 6) ∧
    (register AppState.empty (some ⟨some "Alice", some "not-an-email", some "secret1"⟩)
        0).status = 400 ∧
    (register AppState.empty (some ⟨some "Alice", some "not-an-email", some "secret1"⟩)
        0).state = AppState.empty :=
  ⟨Or.inl (by decide),
    register_validation_rejects AppState.empty
      ⟨some "Alice", some "not-an-email", some "secret1"⟩ 0 (Or.inl (by decide))⟩

/-- C4: adding an ingredient stores its trimmed lowercased form, and adding
any letter-case variant of the same name afterwards is rejected with 409,
leaving the pantry unchanged. -/
theorem ingredient_add_case_insensitive_duplicate (s : AppState) (uid : Nat)
    (raw1 raw2 : String)
    (h1 : pyLower (pyStrip raw1) ≠ "")
    (h2 : (uid, pyLower (pyStrip raw1)) ∉ s.userIngredients)
    (h3 : pyLower (pyStrip raw2) = pyLower (pyStrip raw1)) :
    (add_ingredient s uid (some raw1)).status = 201 ∧
    (add_ingredient s uid (some raw1)).ingredient = some (pyLower (pyStrip raw1)) ∧
    (add_ingredient s uid (some raw1)).state.userIngredients
      = s.userIngredients ++ [(uid, pyLower (pyStrip raw1))] ∧
    (add_ingredient (add_ingredient s uid (some raw1)).state uid (some raw2)).status
      = 409 ∧
    (add_ingredient (add_ingredient s uid (some raw1)).state uid (some raw2)).state
      = (add_ingredient s uid (some raw1)).state := by
  have hfirst : add_ingredient s uid (some raw1)
      = ⟨201, some (pyLower (pyStrip raw1)),
          ⟨s.users, s.nextUserId, s.userIngredients ++ [(uid, pyLower (pyStrip raw1))],
            s.recipes, s.nextRecipeId, s.favorites, s.history⟩⟩ := by
    unfold add_ingredient
    simp only [Option.getD_some]
    rw [if_neg h1, if_neg h2]
  have hsecond : add_ingredient (add_ingredient s uid (some raw1)).state uid (some raw2)
      = ⟨409, none, (add_ingredient s uid (some raw1)).state⟩ := by
    rw [hfirst]
    unfold add_ingredient
    simp only [Option.getD_some, h3]
    rw [if_neg h1, if_pos (by simp)]
  rw [hsecond, hfirst]
  exact ⟨rfl, rfl, rfl, rfl, rfl⟩

theorem ingredient_add_case_insensitive_duplicate_witness :
    (pyLower (pyStrip "Tomato") ≠ "" ∧
      ((1 : Nat), pyLower (pyStrip "Tomato")) ∉ AppState.empty.userIngredients ∧
      pyLower (pyStrip "TOMATO") = pyLower (pyStrip "Tomato")) ∧
    (add_ingredient AppState.empty 1 (some "Tomato")).status = 201 ∧
    (add_ingredient AppState.empty 1 (some "Tomato")).ingredient = some "tomato" ∧
    (add_ingredient (add_ingredient AppState.empty 1 (some "Tomato")).state 1
        (some "TOMATO")).status = 409 :=
  ⟨⟨by decide, by decide, by decide⟩,
    (ingredient_add_case_insensitive_duplicate AppState.empty 1 "Tomato" "TOMATO"
        (by decide) (by decide) (by decide)).1,
    by
      have h := (ingredient_add_case_insensitive_duplicate AppState.empty 1 "Tomato"
        "TOMATO" (by decide) (by decide) (by decide)).2.1
      rw [h]; decide,
    (ingredient_add_case_insensitive_duplicate AppState.empty 1 "Tomato" "TOMATO"
        (by decide) (by decide) (by decide)).2.2.2.1⟩

/-- C9: the history listing returns at most 20 rows, in descending
`search_time` order (most recent first), and only rows of the requesting
user, whatever the stored history is. -/
theorem history_limit_and_order (s : AppState) (uid : Nat) :
    (get_search_history s uid).length ≤ 20 ∧
    (get_search_history s uid).Pairwise moreRecent ∧
    ∀ h ∈ get_search_history s uid, h.user_id = uid := by
  refine ⟨?_, ?_, ?_⟩
  · unfold get_search_history get_user_history
    rw [List.length_take]
    exact Nat.min_le_left _ _
  · unfold get_search_history get_user_history
    exact (List.sorted_insertionSort moreRecent _).sublist (List.take_sublist _ _)
  · intro h hm
    unfold get_search_history get_user_history at hm
    have hm2 := (List.take_sublist _ _).subset hm
    have hm3 := (List.perm_insertionSort moreRecent _).subset hm2
    have hf := List.mem_filter.mp hm3
    exact of_decide_eq_true hf.2

/-- C10: the auth decorator accepts a raw JWT in the `Authorization` header
exactly as it accepts the `Bearer `-prefixed form — a valid token yields the
same decoded user id either way, and for any header value without the
prefix the two header forms produce identical results. -/
theorem token_required_prefix_optional (uid expTime now : Nat) (t : String) :
    (now < expTime →
      token_required (some (jwtEncode uid expTime SECRET_KEY "HS256")) now
        = Except.ok uid ∧
      token_required (some ("Bearer " ++ jwtEncode uid expTime SECRET_KEY "HS256")) now
        = Except.ok uid) ∧
    (("Bearer ".data).isPrefixOf t.data = false →
      token_required (some ("Bearer " ++ t)) now = token_required (some t) now) := by
  constructor
  · intro h
    constructor
    · simp [token_required, stripBearer_jwtEncode,
        jwtDecode_jwtEncode uid expTime SECRET_KEY now h]
    · simp [token_required, stripBearer_bearer_append,
        jwtDecode_jwtEncode uid expTime SECRET_KEY now h]
  · intro h
    simp [token_required, stripBearer_bearer_append, stripBearer_of_not_prefixed t h]

theorem token_required_prefix_optional_witness :
    ((3 : Nat) < 100) ∧
    token_required (some (jwtEncode 5 100 SECRET_KEY "HS256")) 3 = Except.ok 5 ∧
    token_required (some ("Bearer " ++ jwtEncode 5 100 SECRET_KEY "HS256")) 3
      = Except.ok 5 :=
  ⟨by decide, ((token_required_prefix_optional 5 100 3 "t").1 (by decide)).1,
    ((token_required_prefix_optional 5 100 3 "t").1 (by decide)).2⟩

/-- C3: after a successful registration, the token issued by `login` for the
same credentials is exactly a 7-day token for the user id assigned at
registration, and the auth decorator's decode recovers that id (within the
token's validity window). -/
theorem login_token_roundtrip (s : AppState) (name email password : String)
    (now1 now2 now3 : Nat)
    (hname : name ≠ "")
    (hemail : validEmail email = true)
    (hpw : 6 ≤ password.length)
    (hdup : s.users.find? (fun u => u.email = email) = none)
    (hexp : now3 < now2 + sevenDays) :
    (register s (some ⟨some name, some email, some password⟩) now1).status = 201 ∧
    (register s (some ⟨some name, some email, some password⟩) now1).userId
      = some s.nextUserId ∧
    (login (register s (some ⟨some name, some email, some password⟩) now1).state
        (some ⟨some email, some password⟩) now2).status = 200 ∧
    (login (register s (some ⟨some name, some email, some password⟩) now1).state
        (some ⟨some email, some password⟩) now2).token
      = some (jwtEncode s.nextUserId (now2 + sevenDays) SECRET_KEY "HS256") ∧
    token_required
        (some (jwtEncode s.nextUserId (now2 + sevenDays) SECRET_KEY "HS256")) now3
      = Except.ok s.nextUserId := by
  have hemail' : ¬ email = "" := by
    intro he
    rw [he] at hemail
    exact absurd hemail (by decide)
  have hpw' : ¬ password = "" := by
    intro he
    rw [he] at hpw
    exact absurd hpw (by decide)
  have hnlt : ¬ password.length < 6 := Nat.not_lt.mpr hpw
  have hreg : register s (some ⟨some name, some email, some password⟩) now1
      = ⟨201, some (jwtEncode s.nextUserId (now1 + sevenDays) SECRET_KEY "HS256"),
          some s.nextUserId,
          ⟨s.users ++ [⟨s.nextUserId, name, email, generate_password_hash password⟩],
            s.nextUserId + 1, s.userIngredients, s.recipes, s.nextRecipeId,
            s.favorites, s.history⟩⟩ := by
    simp [register, fieldBlank, hname, hemail', hpw', hemail, hnlt, hdup]
  have hfind : (s.users ++
        [(⟨s.nextUserId, name, email, generate_password_hash password⟩ : UserRow)]).find?
        (fun u => u.email = email)
      = some (⟨s.nextUserId, name, email, generate_password_hash password⟩ : UserRow) := by
    rw [List.find?_append, hdup]
    simp [List.find?]
  have hlogin : login (register s (some ⟨some name, some email, some password⟩)
        now1).state (some ⟨some email, some password⟩) now2
      = ⟨200, some (jwtEncode s.nextUserId (now2 + sevenDays) SECRET_KEY "HS256"),
          some s.nextUserId⟩ := by
    rw [hreg]
    simp [login, fieldBlank, hemail', hpw', hfind, check_password_hash]
  refine ⟨by rw [hreg], by rw [hreg], by rw [hlogin], by rw [hlogin], ?_⟩
  simp [token_required, stripBearer_jwtEncode,
    jwtDecode_jwtEncode s.nextUserId (now2 + sevenDays) SECRET_KEY now3 hexp]

theorem login_token_roundtrip_witness :
    (("Alice" : String) ≠ "" ∧ validEmail "a@b.com" = true ∧
      6 ≤ ("secret1" : String).length ∧
      AppState.empty.users.find? (fun u => u.email = "a@b.com") = none ∧
      10 < 5 + sevenDays) ∧
    token_required
        (some (jwtEncode AppState.empty.nextUserId (5 + sevenDays) SECRET_KEY "HS256"))
        10
      = Except.ok AppState.empty.nextUserId :=
  ⟨⟨by decide, by decide, by decide, by decide, by decide⟩,
    (login_token_roundtrip AppState.empty "Alice" "a@b.com" "secret1" 0 5 10
      (by decide) (by decide) (by decide) (by decide) (by decide)).2.2.2.2⟩

/-- C2 (as stated) is refuted: a request whose email is already registered
but whose password is shorter than 6 characters is answered 400, not 409 —
the validation checks run before the duplicate-email check. -/
theorem register_duplicate_email_counterexample :
    ((AppState.mk [⟨1, "Alice", "a@b.com", generate_password_hash "secret1"⟩] 2
        [] [] 1 [] []).users.find? (fun u => u.email = "a@b.com")).isSome = true ∧
    (register (AppState.mk [⟨1, "Alice", "a@b.com", generate_password_hash "secret1"⟩]
        2 [] [] 1 [] []) (some ⟨some "Bob", some "a@b.com", some "abc"⟩) 0).status
      = 400 ∧
    (register (AppState.mk [⟨1, "Alice", "a@b.com", generate_password_hash "secret1"⟩]
        2 [] [] 1 [] []) (some ⟨some "Bob", some "a@b.com", some "abc"⟩) 0).status
      ≠ 409 := by
  decide

/-- C2 (amended): a registration request that passes the field-presence,
email-shape and password-length validations and whose email equals the email
of an already-registered user is answered 409 and creates no user row. -/
theorem register_duplicate_email_conflict (s : AppState) (d : RegisterReq) (now : Nat)
    (hname : fieldBlank d.name = false)
    (hemail : validEmail (d.email.getD "") = true)
    (hpw : 6 ≤ (d.password.getD "").length)
    (hdup : ∃ u ∈ s.users, u.email = d.email.getD "") :
    (register s (some d) now).status = 409 ∧ (register s (some d) now).state = s := by
  have hpe : fieldBlank d.email = false := by
    cases he : d.email with
    | none => rw [he] at hemail; exact absurd hemail (by decide)
    | some e =>
      rw [he] at hemail
      simp only [Option.getD_some] at hemail
      by_cases h0 : e = ""
      · rw [h0] at hemail; exact absurd hemail (by decide)
      · simp [fieldBlank, h0]
  have hpp : fieldBlank d.password = false := by
    cases he : d.password with
    | none => rw [he] at hpw; exact absurd hpw (by decide)
    | some p =>
      rw [he] at hpw
      simp only [Option.getD_some] at hpw
      by_cases h0 : p = ""
      · rw [h0] at hpw; exact absurd hpw (by decide)
      · simp [fieldBlank, h0]
  have hnlt : ¬ (d.password.getD "").length < 6 := Nat.not_lt.mpr hpw
  have hfound : (s.users.find? (fun u => u.email = d.email.getD "")).isSome = true := by
    rw [List.find?_isSome]
    rcases hdup with ⟨u, hu, he⟩
    exact ⟨u, hu, by simp [he]⟩
  simp [register, hname, hpe, hpp, hemail, hnlt, hfound]

theorem register_duplicate_email_conflict_witness :
    (fieldBlank (some "Bob") = false ∧ validEmail "a@b.com" = true ∧
      6 ≤ ("secret2" : String).length ∧
      (∃ u ∈ (AppState.mk [⟨1, "Alice", "a@b.com", generate_password_hash "secret1"⟩]
        2 [] [] 1 [] []).users, u.email = "a@b.com")) ∧
    (register (AppState.mk [⟨1, "Alice", "a@b.com", generate_password_hash "secret1"⟩]
        2 [] [] 1 [] []) (some ⟨some "Bob", some "a@b.com", some "secret2"⟩) 0).status
      = 409 :=
  ⟨⟨by decide, by decide, by decide, by decide⟩,
    (register_duplicate_email_conflict
      (AppState.mk [⟨1, "Alice", "a@b.com", generate_password_hash "secret1"⟩]
        2 [] [] 1 [] [])
      ⟨some "Bob", some "a@b.com", some "secret2"⟩ 0
      (by decide) (by decide) (by decide) (by decide)).1⟩

/-- C5: removal answers 404 exactly when no pantry entry of the user matches
the submitted name case-insensitively; when one matches, it answers 200 and
the name is gone from the pantry afterwards.  The hypothesis is the
invariant `add_ingredient` maintains: stored names are lowercased. -/
theorem remove_ingredient_found_iff (s : AppState) (uid : Nat) (name : String)
    (hinv : ∀ p ∈ pantry s uid, pyLower p = p) :
    ((remove_ingredient s uid name).status = 404 ↔
      ¬ ∃ p ∈ pantry s uid, pyLower p = pyLower name) ∧
    ((∃ p ∈ pantry s uid, pyLower p = pyLower name) →
      (remove_ingredient s uid name).status = 200 ∧
      ¬ ∃ p ∈ pantry (remove_ingredient s uid name).state uid,
          pyLower p = pyLower name) := by
  have hmem : (∃ p ∈ pantry s uid, pyLower p = pyLower name) ↔
      (uid, pyLower name) ∈ s.userIngredients := by
    constructor
    · rintro ⟨p, hp, he⟩
      have hpfix : pyLower p = p := hinv p hp
      have hpn : p = pyLower name := hpfix.symm.trans he
      rcases List.mem_map.mp hp with ⟨r, hr, hrp⟩
      rcases List.mem_filter.mp hr with ⟨hrm, hru⟩
      have hru' : r.1 = uid := of_decide_eq_true hru
      have : r = (uid, pyLower name) := by
        cases r
        simp only [Prod.mk.injEq]
        exact ⟨hru', hrp.trans hpn⟩
      rw [← this]
      exact hrm
    · intro hm
      have hpm : pyLower name ∈ pantry s uid :=
        List.mem_map.mpr ⟨(uid, pyLower name),
          List.mem_filter.mpr ⟨hm, by simp⟩, rfl⟩
      exact ⟨pyLower name, hpm, hinv _ hpm⟩
  have hdel : ((s.userIngredients.filter
        (fun r => r.1 = uid ∧ r.2 = pyLower name)).length = 0) ↔
      ¬ (uid, pyLower name) ∈ s.userIngredients := by
    rw [List.length_eq_zero, List.filter_eq_nil_iff]
    constructor
    · intro h hm
      exact h _ hm (by simp)
    · intro h r hr hc
      have hc' : r.1 = uid ∧ r.2 = pyLower name := of_decide_eq_true hc
      have : r = (uid, pyLower name) := by
        cases r
        simp only [Prod.mk.injEq]
        exact hc'
      exact h (this ▸ hr)
  constructor
  · constructor
    · intro h404
      rw [hmem, ← hdel]
      unfold remove_ingredient at h404
      by_cases hz : (s.userIngredients.filter
          (fun r => r.1 = uid ∧ r.2 = pyLower name)).length = 0
      · exact hz
      · rw [if_neg hz] at h404
        simp at h404
    · intro habs
      rw [hmem, ← hdel] at habs
      unfold remove_ingredient
      rw [if_pos habs]
  · intro hex
    have hmm := hmem.mp hex
    have hz : ¬ (s.userIngredients.filter
        (fun r => r.1 = uid ∧ r.2 = pyLower name)).length = 0 := by
      rw [hdel]
      exact not_not.mpr hmm
    constructor
    · unfold remove_ingredient
      rw [if_neg hz]
    · rintro ⟨p, hp, he⟩
      unfold remove_ingredient at hp
      rw [if_neg hz] at hp
      rcases List.mem_map.mp hp with ⟨r, hr, hrp⟩
      rcases List.mem_filter.mp hr with ⟨hrm, hru⟩
      rcases List.mem_filter.mp hrm with ⟨hrm0, hkeep⟩
      have hru' : r.1 = uid := of_decide_eq_true hru
      have hpmem : p ∈ pantry s uid :=
        List.mem_map.mpr ⟨r, List.mem_filter.mpr ⟨hrm0, hru⟩, hrp⟩
      have hpn : p = pyLower name := (hinv p hpmem).symm.trans he
      have hnot := of_decide_eq_true hkeep
      exact hnot ⟨hru', hrp.trans hpn⟩

theorem remove_ingredient_found_iff_witness :
    (∀ p ∈ pantry (AppState.mk [] 1 [(1, "tomato")] [] 1 [] []) 1, pyLower p = p) ∧
    (∃ p ∈ pantry (AppState.mk [] 1 [(1, "tomato")] [] 1 [] []) 1,
      pyLower p = pyLower "ToMaTo") ∧
    (remove_ingredient (AppState.mk [] 1 [(1, "tomato")] [] 1 [] []) 1 "ToMaTo").status
      = 200 :=
  ⟨by decide, by decide,
    ((remove_ingredient_found_iff (AppState.mk [] 1 [(1, "tomato")] [] 1 [] []) 1
      "ToMaTo" (by decide)).2 (by decide)).1⟩

theorem find?_name_append_single (l : List RecipeRow) (row : RecipeRow) (n : String)
    (h : l.find? (fun r => r.name = n) = none) (hrow : row.name = n) :
    (l ++ [row]).find? (fun r => r.name = n) = some row := by
  rw [List.find?_append, h]
  simp [List.find?, hrow]

theorem find?_name_append_single_ne (l : List RecipeRow) (row : RecipeRow) (n : String)
    (hrow : row.name ≠ n) :
    (l ++ [row]).find? (fun r => r.name = n) = l.find? (fun r => r.name = n) := by
  rw [List.find?_append]
  simp [List.find?, hrow]

/-- C7: with a well-formed recipe/favorites table, favoriting a name that is
not yet among the user's favorites succeeds with 201 (creating the recipe
row when no recipe of that name exists — the upsert); favoriting the same
name again afterwards is rejected with 409; and favoriting a different,
not-yet-favorited name afterwards still succeeds with 201. -/
theorem add_favorite_name_semantics (s : AppState) (uid : Nat)
    (rd1 rd2 rd3 : RecipeReq) (n1 n2 : String)
    (hwf : RecipesWF s)
    (hn1 : rd1.name = some n1)
    (hn3 : rd3.name = some n1)
    (hn2 : rd2.name = some n2)
    (hfav1 : favoriteByName s uid n1 = false) :
    (add_favorite s uid (some rd1)).status = 201 ∧
    ((∀ r ∈ s.recipes, r.name ≠ n1) →
      ∃ r ∈ (add_favorite s uid (some rd1)).state.recipes, r.name = n1) ∧
    (add_favorite (add_favorite s uid (some rd1)).state uid (some rd3)).status = 409 ∧
    (n2 ≠ n1 → favoriteByName s uid n2 = false →
      (add_favorite (add_favorite s uid (some rd1)).state uid (some rd2)).status
        = 201) := by
  obtain ⟨hnodup, hidlt, hfavwf⟩ := hwf
  cases hfind : s.recipes.find? (fun r => r.name = n1) with
  | none =>
    have hnotfav1 : (uid, s.nextRecipeId) ∉ s.favorites :=
      fun hm => Nat.lt_irrefl _ (hfavwf _ hm)
    have h1 : add_favorite s uid (some rd1)
        = ⟨201, ⟨s.users, s.nextUserId, s.userIngredients,
            s.recipes ++ [⟨s.nextRecipeId, n1, rd1.description.getD "",
              pyJoin ", " (rd1.ingredients.getD []),
              pyJoin "\n" (rd1.instructions.getD []),
              rd1.cook_time.getD "", rd1.difficulty.getD "Medium"⟩],
            s.nextRecipeId + 1, s.favorites ++ [(uid, s.nextRecipeId)], s.history⟩⟩ := by
      simp only [add_favorite, hn1, hfind, insertRecipeFromReq]
      rw [if_neg hnotfav1]
    have hfind1 : (s.recipes ++ [(⟨s.nextRecipeId, n1, rd1.description.getD "",
          pyJoin ", " (rd1.ingredients.getD []),
          pyJoin "\n" (rd1.instructions.getD []),
          rd1.cook_time.getD "", rd1.difficulty.getD "Medium"⟩ : RecipeRow)]).find?
          (fun r => r.name = n1)
        = some ⟨s.nextRecipeId, n1, rd1.description.getD "",
            pyJoin ", " (rd1.ingredients.getD []),
            pyJoin "\n" (rd1.instructions.getD []),
            rd1.cook_time.getD "", rd1.difficulty.getD "Medium"⟩ :=
      find?_name_append_single _ _ _ hfind rfl
    refine ⟨by rw [h1], ?_, ?_, ?_⟩
    · intro _
      rw [h1]
      exact ⟨_, List.mem_append_right _ (List.mem_singleton.mpr rfl), rfl⟩
    · rw [h1]
      simp only [add_favorite, hn3, hfind1]
      rw [if_pos (List.mem_append_right _ (List.mem_singleton.mpr rfl))]
    · intro hne hfav2
      rw [h1]
      cases hfind2 : s.recipes.find? (fun r => r.name = n2) with
      | none =>
        have hfind2' : (s.recipes ++ [(⟨s.nextRecipeId, n1, rd1.description.getD "",
              pyJoin ", " (rd1.ingredients.getD []),
              pyJoin "\n" (rd1.instructions.getD []),
              rd1.cook_time.getD "", rd1.difficulty.getD "Medium"⟩ : RecipeRow)]).find?
              (fun r => r.name = n2) = none := by
          rw [find?_name_append_single_ne _ _ _ (fun h => hne h.symm), hfind2]
        have hni : (uid, s.nextRecipeId + 1) ∉
            s.favorites ++ [(uid, s.nextRecipeId)] := by
          intro hm
          rcases List.mem_append.mp hm with hm | hm
          · exact Nat.lt_irrefl _ (Nat.lt_of_lt_of_le (hfavwf _ hm) (Nat.le_succ _))
          · have h2 := (Prod.mk.injEq _ _ _ _).mp (List.mem_singleton.mp hm)
            exact Nat.succ_ne_self _ (h2.2.symm ▸ h2.2)
        simp only [add_favorite, hn2, hfind2', insertRecipeFromReq]
        rw [if_neg hni]
      | some r2 =>
        have hr2mem : r2 ∈ s.recipes := List.mem_of_find?_eq_some hfind2
        have hr2name : r2.name = n2 := by simpa using List.find?_some hfind2
        have hr2lt : r2.id < s.nextRecipeId := hidlt _ hr2mem
        have hfind2' : (s.recipes ++ [(⟨s.nextRecipeId, n1, rd1.description.getD "",
              pyJoin ", " (rd1.ingredients.getD []),
              pyJoin "\n" (rd1.instructions.getD []),
              rd1.cook_time.getD "", rd1.difficulty.getD "Medium"⟩ : RecipeRow)]).find?
              (fun r => r.name = n2) = some r2 := by
          rw [find?_name_append_single_ne _ _ _ (fun h => hne h.symm), hfind2]
        have hnot : (uid, r2.id) ∉ s.favorites := by
          unfold favoriteByName at hfav2
          rw [hfind2] at hfav2
          exact of_decide_eq_false hfav2
        have hni : (uid, r2.id) ∉ s.favorites ++ [(uid, s.nextRecipeId)] := by
          intro hm
          rcases List.mem_append.mp hm with hm | hm
          · exact hnot hm
          · have h2 := (Prod.mk.injEq _ _ _ _).mp (List.mem_singleton.mp hm)
            exact Nat.lt_irrefl _ (h2.2 ▸ hr2lt)
        simp only [add_favorite, hn2, hfind2']
        rw [if_neg hni]
  | some r1 =>
    have hr1mem : r1 ∈ s.recipes := List.mem_of_find?_eq_some hfind
    have hr1name : r1.name = n1 := by simpa using List.find?_some hfind
    have hr1lt : r1.id < s.nextRecipeId := hidlt _ hr1mem
    have hnotfav1 : (uid, r1.id) ∉ s.favorites := by
      unfold favoriteByName at hfav1
      rw [hfind] at hfav1
      exact of_decide_eq_false hfav1
    have h1 : add_favorite s uid (some rd1)
        = ⟨201, ⟨s.users, s.nextUserId, s.userIngredients, s.recipes, s.nextRecipeId,
            s.favorites ++ [(uid, r1.id)], s.history⟩⟩ := by
      simp only [add_favorite, hn1, hfind]
      rw [if_neg hnotfav1]
    refine ⟨by rw [h1], ?_, ?_, ?_⟩
    · intro hall
      exact absurd hr1name (hall r1 hr1mem)
    · rw [h1]
      simp only [add_favorite, hn3, hfind]
      rw [if_pos (List.mem_append_right _ (List.mem_singleton.mpr rfl))]
    · intro hne hfav2
      rw [h1]
      cases hfind2 : s.recipes.find? (fun r => r.name = n2) with
      | none =>
        have hni : (uid, s.nextRecipeId) ∉ s.favorites ++ [(uid, r1.id)] := by
          intro hm
          rcases List.mem_append.mp hm with hm | hm
          · exact Nat.lt_irrefl _ (hfavwf _ hm)
          · have h2 := (Prod.mk.injEq _ _ _ _).mp (List.mem_singleton.mp hm)
            exact Nat.lt_irrefl _ (h2.2 ▸ hr1lt)
        simp only [add_favorite, hn2, hfind2, insertRecipeFromReq]
        rw [if_neg hni]
      | some r2 =>
        have hr2mem : r2 ∈ s.recipes := List.mem_of_find?_eq_some hfind2
        have hr2name : r2.name = n2 := by simpa using List.find?_some hfind2
        have hrne : r2 ≠ r1 := by
          intro he
          exact hne ((he ▸ hr2name).symm.trans hr1name)
        have hidne : r2.id ≠ r1.id := by
          intro he
          exact hrne (List.inj_on_of_nodup_map hnodup hr2mem hr1mem he)
        have hnot : (uid, r2.id) ∉ s.favorites := by
          unfold favoriteByName at hfav2
          rw [hfind2] at hfav2
          exact of_decide_eq_false hfav2
        have hni : (uid, r2.id) ∉ s.favorites ++ [(uid, r1.id)] := by
          intro hm
          rcases List.mem_append.mp hm with hm | hm
          · exact hnot hm
          · have h2 := (Prod.mk.injEq _ _ _ _).mp (List.mem_singleton.mp hm)
            exact hidne h2.2
        simp only [add_favorite, hn2, hfind2]
        rw [if_neg hni]

theorem add_favorite_name_semantics_witness :
    (RecipesWF AppState.empty ∧ favoriteByName AppState.empty 1 "Pasta" = false ∧
      ("Soup" : String) ≠ "Pasta" ∧ favoriteByName AppState.empty 1 "Soup" = false) ∧
    (add_favorite AppState.empty 1
        (some ⟨some "Pasta", none, none, none, none, none⟩)).status = 201 ∧
    (add_favorite (add_favorite AppState.empty 1
        (some ⟨some "Pasta", none, none, none, none, none⟩)).state 1
        (some ⟨some "Pasta", none, none, none, none, none⟩)).status = 409 ∧
    (add_favorite (add_favorite AppState.empty 1
        (some ⟨some "Pasta", none, none, none, none, none⟩)).state 1
        (some ⟨some "Soup", none, none, none, none, none⟩)).status = 201 :=
  ⟨⟨⟨by decide, by decide, by decide⟩, by decide, by decide, by decide⟩,
    (add_favorite_name_semantics AppState.empty 1
      ⟨some "Pasta", none, none, none, none, none⟩
      ⟨some "Soup", none, none, none, none, none⟩
      ⟨some "Pasta", none, none, none, none, none⟩ "Pasta" "Soup"
      ⟨by decide, by decide, by decide⟩ rfl rfl rfl (by decide)).1,
    (add_favorite_name_semantics AppState.empty 1
      ⟨some "Pasta", none, none, none, none, none⟩
      ⟨some "Soup", none, none, none, none, none⟩
      ⟨some "Pasta", none, none, none, none, none⟩ "Pasta" "Soup"
      ⟨by decide, by decide, by decide⟩ rfl rfl rfl (by decide)).2.2.1,
    (add_favorite_name_semantics AppState.empty 1
      ⟨some "Pasta", none, none, none, none, none⟩
      ⟨some "Soup", none, none, none, none, none⟩
      ⟨some "Pasta", none, none, none, none, none⟩ "Pasta" "Soup"
      ⟨by decide, by decide, by decide⟩ rfl rfl rfl (by decide)).2.2.2
      (by decide) (by decide)⟩

/-! Facts about storing generated recipes. -/

theorem storeRecipes_ok (rs : List RecipeJson)
    (h : ∀ r ∈ rs, (recipeColumns r).isSome = true) :
    ∀ st : AppState, (storeRecipes st rs).1 = true := by
  induction rs with
  | nil => intro st; rfl
  | cons r rs ih =>
    intro st
    have hr := h r (List.mem_cons_self r rs)
    cases hrc : recipeColumns r with
    | none => rw [hrc] at hr; cases hr
    | some row =>
      simp only [storeRecipes, hrc]
      exact ih (fun x hx => h x (List.mem_cons_of_mem _ hx)) _

theorem storeRecipes_history (rs : List RecipeJson) :
    ∀ st : AppState, ((storeRecipes st rs).2).history = st.history := by
  induction rs with
  | nil => intro st; rfl
  | cons r rs ih =>
    intro st
    cases hrc : recipeColumns r with
    | none => simp [storeRecipes, hrc]
    | some row =>
      simp only [storeRecipes, hrc]
      rw [ih]
      rfl

theorem fallback_columns (ing : String) :
    ∀ r ∈ get_fallback_recipes ing, (recipeColumns r).isSome = true := by
  intro r hr
  simp only [get_fallback_recipes, List.mem_cons, List.not_mem_nil, or_false] at hr
  rcases hr with h | h | h <;> subst h <;> rfl

/-- C1: when the completion API call fails, or its answer does not parse, or
the parsed value is not a list of recipes each carrying the six required
fields, the search operation still answers 200 with exactly the 3 fallback
recipes, and each fallback recipe carries all six required fields. -/
theorem search_fallback_three_recipes (s : AppState) (uid : Nat)
    (ingredientsField : Option String) (outcome : ApiOutcome) (now : Nat)
    (hfail : fallbackTriggered outcome = true)
    (hne : pyStrip (ingredientsField.getD "") ≠ "") :
    (search_recipes s uid ingredientsField outcome now).status = 200 ∧
    (search_recipes s uid ingredientsField outcome now).recipes
      = get_fallback_recipes (pyStrip (ingredientsField.getD "")) ∧
    (search_recipes s uid ingredientsField outcome now).recipes.length = 3 ∧
    ∀ r ∈ (search_recipes s uid ingredientsField outcome now).recipes,
      hasRequiredFields r = true := by
  have hgen : generate_recipes outcome (pyStrip (ingredientsField.getD ""))
      = get_fallback_recipes (pyStrip (ingredientsField.getD "")) := by
    cases outcome with
    | apiError => rfl
    | parseError => rfl
    | parsedScalar => rfl
    | parsedList rs =>
      simp only [fallbackTriggered, Bool.not_eq_true'] at hfail
      simp [generate_recipes, hfail]
  rcases hsr : storeRecipes
      (addSearchRow s uid (pyStrip (ingredientsField.getD ""))
        (get_fallback_recipes (pyStrip (ingredientsField.getD ""))).length now)
      (get_fallback_recipes (pyStrip (ingredientsField.getD ""))) with ⟨b, s2⟩
  have hb : b = true := by
    have h := storeRecipes_ok _ (fallback_columns (pyStrip (ingredientsField.getD "")))
      (addSearchRow s uid (pyStrip (ingredientsField.getD ""))
        (get_fallback_recipes (pyStrip (ingredientsField.getD ""))).length now)
    rw [hsr] at h
    exact h
  subst hb
  have hmain : search_recipes s uid ingredientsField outcome now
      = ⟨200, get_fallback_recipes (pyStrip (ingredientsField.getD "")),
          (get_fallback_recipes (pyStrip (ingredientsField.getD ""))).length, s2⟩ := by
    simp only [search_recipes, hgen]
    rw [if_neg hne, hsr]
  refine ⟨by rw [hmain], by rw [hmain], by rw [hmain]; rfl, ?_⟩
  rw [hmain]
  intro r hr
  simp only [get_fallback_recipes, List.mem_cons, List.not_mem_nil, or_false] at hr
  rcases hr with h | h | h <;> subst h <;> rfl

theorem search_fallback_three_recipes_witness :
    (fallbackTriggered ApiOutcome.apiError = true ∧
      pyStrip ((some "eggs, milk" : Option String).getD "") ≠ "") ∧
    (search_recipes AppState.empty 1 (some "eggs, milk") ApiOutcome.apiError 0).status
      = 200 ∧
    (search_recipes AppState.empty 1 (some "eggs, milk")
        ApiOutcome.apiError 0).recipes.length = 3 :=
  ⟨⟨by decide, by decide⟩,
    (search_fallback_three_recipes AppState.empty 1 (some "eggs, milk")
      ApiOutcome.apiError 0 (by decide) (by decide)).1,
    (search_fallback_three_recipes AppState.empty 1 (some "eggs, milk")
      ApiOutcome.apiError 0 (by decide) (by decide)).2.2.1⟩

/-- C8 (as stated) is refuted: the handler strips the submitted ingredient
string before logging, so a submission with surrounding whitespace is logged
in trimmed form, not verbatim. -/
theorem search_history_trim_counterexample :
    ((search_recipes AppState.empty 1 (some " eggs ")
        ApiOutcome.apiError 0).state.history.map (fun h => h.ingredients)) = ["eggs"] ∧
    ("eggs" : String) ≠ " eggs " := by
  decide

/-- C8 (amended): every search whose trimmed ingredient string is nonempty
appends exactly one history row recording the trimmed submitted string and
the number of generated recipes — fallback-served searches included — and on
a successful (200) response those generated recipes and that count are
exactly what the response returns. -/
theorem search_logs_history (s : AppState) (uid : Nat) (f : Option String)
    (o : ApiOutcome) (now : Nat)
    (hne : pyStrip (f.getD "") ≠ "") :
    (search_recipes s uid f o now).state.history
      = s.history ++ [⟨uid, pyStrip (f.getD ""),
          (generate_recipes o (pyStrip (f.getD ""))).length, now⟩] ∧
    ((search_recipes s uid f o now).status = 200 →
      (search_recipes s uid f o now).recipes = generate_recipes o (pyStrip (f.getD "")) ∧
      (search_recipes s uid f o now).total
        = (generate_recipes o (pyStrip (f.getD ""))).length) := by
  rcases hsr : storeRecipes
      (addSearchRow s uid (pyStrip (f.getD ""))
        (generate_recipes o (pyStrip (f.getD ""))).length now)
      (generate_recipes o (pyStrip (f.getD ""))) with ⟨b, s2⟩
  have hhist : s2.history = s.history ++ [⟨uid, pyStrip (f.getD ""),
      (generate_recipes o (pyStrip (f.getD ""))).length, now⟩] := by
    have h := storeRecipes_history (generate_recipes o (pyStrip (f.getD "")))
      (addSearchRow s uid (pyStrip (f.getD ""))
        (generate_recipes o (pyStrip (f.getD ""))).length now)
    rw [hsr] at h
    exact h
  cases b with
  | true =>
    have hmain : search_recipes s uid f o now
        = ⟨200, generate_recipes o (pyStrip (f.getD "")),
            (generate_recipes o (pyStrip (f.getD ""))).length, s2⟩ := by
      simp only [search_recipes]
      rw [if_neg hne, hsr]
    rw [hmain]
    exact ⟨hhist, fun _ => ⟨rfl, rfl⟩⟩
  | false =>
    have hmain : search_recipes s uid f o now = ⟨500, [], 0, s2⟩ := by
      simp only [search_recipes]
      rw [if_neg hne, hsr]
    rw [hmain]
    refine ⟨hhist, fun hc => ?_⟩
    simp at hc

theorem search_logs_history_witness :
    pyStrip ((some " eggs " : Option String).getD "") ≠ "" ∧
    (search_recipes AppState.empty 1 (some " eggs ")
        ApiOutcome.apiError 0).state.history
      = AppState.empty.history ++ [⟨1, pyStrip ((some " eggs " : Option String).getD ""),
          (generate_recipes ApiOutcome.apiError
            (pyStrip ((some " eggs " : Option String).getD ""))).length, 0⟩] :=
  ⟨by decide,
    (search_logs_history AppState.empty 1 (some " eggs ") ApiOutcome.apiError 0
      (by decide)).1⟩

end RecipeApp
